import Mathlib

/-
Verification of the static-analysis core of the code-review service
(`static_agent.py`) and the security scanner (`security_agent.py`).

The Python abstract syntax tree is embedded as the inductive type `Node`
below, covering exactly the node kinds the analyzers inspect via
`isinstance` checks, plus the generic traversal structure.  Nodes the
analyzers never test (e.g. `ast.arguments`, decorators, keyword
arguments) carry no information the analyzers consume; the wrapper
`arguments` node of a `FunctionDef` is flattened into the `defaults`
list, and the `ctx` field is kept only on `Name` (the single place it is
read).  Machine behaviour relied on: Python `bool` is a subtype of
`int`, so `True == 1` and `False == 0`; this is modelled by `pyEq`.

The external parser (`compile` / `ast.parse`) is, per the repository
design, a reused runtime capability: a `Source` packages the raw line
list of the input text together with the parser outcome for it.  The
delegated subprocess tools (flake8, radon) are modelled by their
observable outcomes: either the call raised, or it completed with a
return code, a stdout (given as its JSON-decoding result), and stderr.
-/

inductive Ctx where
  | load
  | store
  | del
deriving DecidableEq

/-- Constant values appearing in `ast.Constant` nodes.  Floats are not
modelled; every claim concerns integer, boolean, string or None
constants. -/
inductive ConstVal where
  | bool (b : Bool)
  | int (n : Int)
  | str (s : String)
  | noneV
deriving DecidableEq

/-- Python equality (`==`) on constant values: `bool` is a subclass of
`int`, so `True == 1` and `False == 0`. -/
def pyEq : ConstVal → ConstVal → Bool
  | .bool a, .bool b => a == b
  | .bool a, .int n => (if a then (1 : Int) else 0) == n
  | .int n, .bool a => n == (if a then (1 : Int) else 0)
  | .int m, .int n => m == n
  | .str s, .str t => s == t
  | .noneV, .noneV => true
  | _, _ => false

/-- Truth value of a numeric constant for the magic-number check:
`isinstance(value, (int, float))` holds for `int` and `bool` (a `bool`
is an `int`); the result is `abs(value)`. -/
def constNumAbs : ConstVal → Option Nat
  | .int n => some n.natAbs
  | .bool b => some (if b then 1 else 0)
  | _ => none

/-- Rendering of a numeric constant by `str()`, as interpolated into the
magic-number message. -/
def constNumStr : ConstVal → String
  | .int n => toString n
  | .bool b => if b then "True" else "False"
  | _ => ""

/-- Embedded Python AST.  Each constructor mirrors one `ast` node kind
tested by the analyzers; `lineno` is the source line recorded on the
node.  `ret` holds zero or one value expressions, `listComp` holds its
element followed by its `comprehension` generator nodes, and `importS`
keeps only the imported dotted names (its `alias` children carry nothing
any analyzer tests). -/
inductive Node where
  | module (body : List Node)
  | functionDef (nm : String) (defaults : List Node) (body : List Node) (lineno : Nat)
  | classDef (nm : String) (body : List Node) (lineno : Nat)
  | assign (targets : List Node) (value : Node) (lineno : Nat)
  | forS (target : Node) (iter : Node) (body : List Node) (orelse : List Node) (lineno : Nat)
  | whileS (test : Node) (body : List Node) (orelse : List Node) (lineno : Nat)
  | ifS (test : Node) (body : List Node) (orelse : List Node) (lineno : Nat)
  | exprS (value : Node) (lineno : Nat)
  | ret (value : List Node) (lineno : Nat)
  | name (id : String) (ctx : Ctx) (lineno : Nat)
  | const (v : ConstVal) (lineno : Nat)
  | call (func : Node) (args : List Node) (lineno : Nat)
  | attr (value : Node) (attrName : String) (lineno : Nat)
  | listComp (elt : Node) (gens : List Node) (lineno : Nat)
  | comprehension (target : Node) (iter : Node)
  | listLit (elts : List Node) (lineno : Nat)
  | setLit (elts : List Node) (lineno : Nat)
  | dictLit (keys : List Node) (values : List Node) (lineno : Nat)
  | tupleLit (elts : List Node) (lineno : Nat)
  | binOp (lhs : Node) (rhs : Node) (lineno : Nat)
  | importS (names : List String) (lineno : Nat)
  | passS (lineno : Nat)

/-- Source line recorded on a node (`module` and `comprehension` carry
none in CPython; the analyzers never read it there). -/
def Node.lineno : Node → Nat
  | .module _ => 0
  | .functionDef _ _ _ l => l
  | .classDef _ _ l => l
  | .assign _ _ l => l
  | .forS _ _ _ _ l => l
  | .whileS _ _ _ l => l
  | .ifS _ _ _ l => l
  | .exprS _ l => l
  | .ret _ l => l
  | .name _ _ l => l
  | .const _ l => l
  | .call _ _ l => l
  | .attr _ _ l => l
  | .listComp _ _ l => l
  | .comprehension _ _ => 0
  | .listLit _ l => l
  | .setLit _ l => l
  | .dictLit _ _ l => l
  | .tupleLit _ l => l
  | .binOp _ _ l => l
  | .importS _ l => l
  | .passS l => l

mutual
/-- Depth-first preorder traversal of a tree: the node itself followed
by the traversals of its children in field order.  This is the visit
order of `ast.NodeVisitor.generic_visit` and the node set of
`ast.walk` (which enumerates breadth-first; no analyzer result depends
on the difference, only the interleaving of finding lists). -/
def walkPlain : Node → List Node
  | .module body => .module body :: walkList body
  | .functionDef nm ds body l => .functionDef nm ds body l :: (walkList ds ++ walkList body)
  | .classDef nm body l => .classDef nm body l :: walkList body
  | .assign ts v l => .assign ts v l :: (walkList ts ++ walkPlain v)
  | .forS t i body orelse l => .forS t i body orelse l :: (walkPlain t ++ walkPlain i ++ walkList body ++ walkList orelse)
  | .whileS t body orelse l => .whileS t body orelse l :: (walkPlain t ++ walkList body ++ walkList orelse)
  | .ifS t body orelse l => .ifS t body orelse l :: (walkPlain t ++ walkList body ++ walkList orelse)
  | .exprS v l => .exprS v l :: walkPlain v
  | .ret v l => .ret v l :: walkList v
  | .name i c l => [.name i c l]
  | .const v l => [.const v l]
  | .call f args l => .call f args l :: (walkPlain f ++ walkList args)
  | .attr v a l => .attr v a l :: walkPlain v
  | .listComp e gens l => .listComp e gens l :: (walkPlain e ++ walkList gens)
  | .comprehension t i => .comprehension t i :: (walkPlain t ++ walkPlain i)
  | .listLit es l => .listLit es l :: walkList es
  | .setLit es l => .setLit es l :: walkList es
  | .dictLit ks vs l => .dictLit ks vs l :: (walkList ks ++ walkList vs)
  | .tupleLit es l => .tupleLit es l :: walkList es
  | .binOp a b l => .binOp a b l :: (walkPlain a ++ walkPlain b)
  | .importS ns l => [.importS ns l]
  | .passS l => [.passS l]
termination_by structural n => n

/-- Traversals of a list of sibling nodes, concatenated in order. -/
def walkList : List Node → List Node
  | [] => []
  | n :: ns => walkPlain n ++ walkList ns
termination_by structural l => l
end

/-- Loop test of the estimator: `isinstance(node, (ast.For, ast.While))`. -/
def isLoop : Node → Bool
  | .forS _ _ _ _ _ => true
  | .whileS _ _ _ _ => true
  | _ => false

mutual
/-- Visit sequence of `estimate_big_o_complexity.visit`: every node
paired with the ambient depth it is visited at.  The source passes each
child `depth + 1` when the current node is a loop and `depth + depth`
otherwise (the recursive call reads `depth + (1 if loop else depth)`),
starting from depth 0 at the root. -/
def walkD : Node → Nat → List (Node × Nat)
  | .module body, d => (.module body, d) :: walkDList body (d + d)
  | .functionDef nm ds body l, d => (.functionDef nm ds body l, d) :: (walkDList ds (d + d) ++ walkDList body (d + d))
  | .classDef nm body l, d => (.classDef nm body l, d) :: walkDList body (d + d)
  | .assign ts v l, d => (.assign ts v l, d) :: (walkDList ts (d + d) ++ walkD v (d + d))
  | .forS t i body orelse l, d => (.forS t i body orelse l, d) :: (walkD t (d + 1) ++ walkD i (d + 1) ++ walkDList body (d + 1) ++ walkDList orelse (d + 1))
  | .whileS t body orelse l, d => (.whileS t body orelse l, d) :: (walkD t (d + 1) ++ walkDList body (d + 1) ++ walkDList orelse (d + 1))
  | .ifS t body orelse l, d => (.ifS t body orelse l, d) :: (walkD t (d + d) ++ walkDList body (d + d) ++ walkDList orelse (d + d))
  | .exprS v l, d => (.exprS v l, d) :: walkD v (d + d)
  | .ret v l, d => (.ret v l, d) :: walkDList v (d + d)
  | .name i c l, d => [(.name i c l, d)]
  | .const v l, d => [(.const v l, d)]
  | .call f args l, d => (.call f args l, d) :: (walkD f (d + d) ++ walkDList args (d + d))
  | .attr v a l, d => (.attr v a l, d) :: walkD v (d + d)
  | .listComp e gens l, d => (.listComp e gens l, d) :: (walkD e (d + d) ++ walkDList gens (d + d))
  | .comprehension t i, d => (.comprehension t i, d) :: (walkD t (d + d) ++ walkD i (d + d))
  | .listLit es l, d => (.listLit es l, d) :: walkDList es (d + d)
  | .setLit es l, d => (.setLit es l, d) :: walkDList es (d + d)
  | .dictLit ks vs l, d => (.dictLit ks vs l, d) :: (walkDList ks (d + d) ++ walkDList vs (d + d))
  | .tupleLit es l, d => (.tupleLit es l, d) :: walkDList es (d + d)
  | .binOp a b l, d => (.binOp a b l, d) :: (walkD a (d + d) ++ walkD b (d + d))
  | .importS ns l, d => [(.importS ns l, d)]
  | .passS l, d => [(.passS l, d)]
termination_by structural n => n

/-- Depth-carrying traversal of sibling nodes, all at the same depth. -/
def walkDList : List Node → Nat → List (Node × Nat)
  | [], _ => []
  | n :: ns, d => walkD n d ++ walkDList ns d
termination_by structural l => l
end

/-
Section: algorithmic complexity estimation (`estimate_big_o_complexity`).
The five `nonlocal` counters of the nested `visit` are embedded as
aggregations over the visit sequence `walkD`: each visited node
contributes its increments once, so the final counter value is the
count (or sum) over the sequence.
-/

/-- Test applied by the estimator for a list comprehension node. -/
def isListComp : Node → Bool
  | .listComp _ _ _ => true
  | _ => false

/-- Test for a sorting call: `isinstance(node, ast.Call)` whose `func`
is an `ast.Attribute` with attribute name `sort` or `sorted`. -/
def isSortCall : Node → Bool
  | .call (.attr _ a _) _ _ => a == "sort" || a == "sorted"
  | _ => false

/-- Test for a call to the plain name `nm`:
`isinstance(inner, ast.Call) and isinstance(inner.func, ast.Name) and inner.func.id == node.name`. -/
def isSelfCallTo (nm : String) : Node → Bool
  | .call (.name id _ _) _ _ => id == nm
  | _ => false

/-- Number of recursive-call hits contributed when the estimator visits
`n`: for a `FunctionDef`, the number of calls to its own name anywhere
in its subtree (`ast.walk(node)`); zero for every other node. -/
def recCallsOf : Node → Nat
  | .functionDef nm ds body l => (walkPlain (.functionDef nm ds body l)).countP (isSelfCallTo nm)
  | _ => 0

/-- Final value of the `loops` counter. -/
def loopsOf (t : Node) : Nat := (walkD t 0).countP (fun p => isLoop p.1)

/-- Final value of the `nested` counter: loop nodes visited at positive
ambient depth. -/
def nestedOf (t : Node) : Nat :=
  (walkD t 0).countP (fun p => isLoop p.1 && decide (0 < p.2))

/-- Final value of the `comp` counter. -/
def compOf (t : Node) : Nat := (walkD t 0).countP (fun p => isListComp p.1)

/-- Final value of the `sorts` counter. -/
def sortsOf (t : Node) : Nat := (walkD t 0).countP (fun p => isSortCall p.1)

/-- Final value of the `recursions` counter. -/
def recursionsOf (t : Node) : Nat := ((walkD t 0).map (fun p => recCallsOf p.1)).sum

/-- Evidence strings appended when visiting one node (the `details`
list).  The recursion evidence enumerates the matching calls of the
subtree; `ast.walk` enumerates breadth-first, modelled here in preorder
(same multiset of strings; no claim reads `details`). -/
def nodeDetails (n : Node) (depth : Nat) : List String :=
  (if isLoop n then ["Loop at line " ++ toString n.lineno ++ ", depth " ++ toString (depth + 1)] else [])
    ++ (if isListComp n then ["List comprehension at line " ++ toString n.lineno] else [])
    ++ (if isSortCall n then ["Sorting detected at line " ++ toString n.lineno] else [])
    ++ (match n with
        | .functionDef nm ds body l =>
            (walkPlain (.functionDef nm ds body l)).filterMap (fun inner =>
              if isSelfCallTo nm inner then
                some ("Recursive call in " ++ nm ++ "() at line " ++ toString inner.lineno)
              else none)
        | _ => [])

/-- Accumulated `details` list of the traversal. -/
def bigODetails (t : Node) : List String :=
  (walkD t 0).flatMap (fun p => nodeDetails p.1 p.2)

/-- Result record of `estimate_big_o_complexity`
(`{"estimate": ..., "space": ..., "details": [...]}`). -/
structure Algo where
  estimate : String
  space : String
  details : List String
deriving DecidableEq

/-- Parser failure outcome: exception class name, message, and the
`lineno` attribute (which may be `None`). -/
structure SynErr where
  cls : String
  msg : String
  lineno : Option Nat
deriving DecidableEq

/-- Embedding of `estimate_big_o_complexity`; its own `ast.parse` is
the same parser outcome the rest of the pipeline sees. -/
def estimate_big_o_complexity : Except SynErr Node → Algo
  | .error _ => { estimate := "Unknown", space := "Unknown", details := [] }
  | .ok tree =>
      let loops := loopsOf tree
      let nested := nestedOf tree
      let recursions := recursionsOf tree
      let comp := compOf tree
      let sorts := sortsOf tree
      let big_o :=
        if 0 < recursions then "O(n^rec)"
        else if 2 ≤ nested then "O(n^2)"
        else if 0 < loops ∧ 0 < sorts then "O(n log n)"
        else if loops = 1 then "O(n)"
        else if 0 < comp then "O(n)"
        else "O(1)"
      let space :=
        if 0 < comp ∨ 0 < loops then "O(n)"
        else if 0 < recursions then "O(recursion depth)"
        else "O(1)"
      { estimate := big_o, space := space, details := bigODetails tree }

/-
Section: semantic analysis (`SemanticAnalyzer` / `analyze_semantics`).
The visitor accumulates Python sets `assigned` and `used` and lists
`mutable_defaults` and `unreachable` over one preorder traversal; the
sets are embedded as deduplicated lists of the names in traversal
order (set iteration order is an implementation detail of the Python
runtime, fixed here deterministically).
-/

/-- Semantic finding: the issue dicts carry a message and, except for
unused-variable findings, a line. -/
structure SemFinding where
  line : Option Nat
  message : String
deriving DecidableEq

/-- Names added by `visit_Assign`: assignment targets that are plain
`ast.Name` nodes (tuple or attribute targets contribute nothing). -/
def assignTargetNames : Node → List String
  | .assign ts _ _ => ts.filterMap (fun t => match t with
      | .name id _ _ => some id
      | _ => none)
  | _ => []

/-- Multiset of names added to `self.assigned` over the traversal. -/
def assignedNames (t : Node) : List String :=
  (walkPlain t).flatMap assignTargetNames

/-- Multiset of names added to `self.used` over the traversal: every
`ast.Name` in `Load` context. -/
def usedNames (t : Node) : List String :=
  (walkPlain t).filterMap (fun n => match n with
    | .name id .load _ => some id
    | _ => none)

/-- Message of an unused-variable finding. -/
def unusedVarMsg (v : String) : String :=
  "Variable \x27" ++ v ++ "\x27 defined but never used."

/-- Unused-variable finding: the issue dict has only a message key. -/
def unusedFinding (v : String) : SemFinding :=
  { line := none, message := unusedVarMsg v }

/-- Test used by `visit_FunctionDef` on each default argument:
`isinstance(d, (ast.List, ast.Dict, ast.Set))`. -/
def isMutableLit : Node → Bool
  | .listLit _ _ => true
  | .dictLit _ _ _ => true
  | .setLit _ _ => true
  | _ => false

/-- Findings appended when `visit_FunctionDef` handles one node: one
finding per mutable default argument, at the line of the function
definition. -/
def mutDefOf : Node → List SemFinding
  | .functionDef nm ds _ l =>
      (ds.filter isMutableLit).map (fun _ =>
        { line := some l, message := "Mutable default arg in " ++ nm ++ "()" })
  | _ => []

/-- Findings appended by `visit_FunctionDef` over the traversal. -/
def mutableDefaultFindings (t : Node) : List SemFinding :=
  (walkPlain t).flatMap mutDefOf

/-- Finding appended when `visit_If` handles one node: the test is a
constant with `node.test.value in (True, False)` — Python equality, so
the integers 1 and 0 qualify as well. -/
def unreachOf : Node → Option SemFinding
  | .ifS (.const v _) _ _ l =>
      if pyEq v (.bool true) || pyEq v (.bool false) then
        some { line := some l, message := "Unreachable branch (constant condition)." }
      else none
  | _ => none

/-- Findings appended by `visit_If` over the traversal. -/
def unreachableFindings (t : Node) : List SemFinding :=
  (walkPlain t).filterMap unreachOf

/-- Embedding of `analyze_semantics`: the `semantic_issues` list — one
finding per name in `assigned - used`, then the mutable-default
findings, then the unreachable-branch findings. -/
def analyze_semantics : Except SynErr Node → List SemFinding
  | .error _ => []
  | .ok t =>
      let unused := (assignedNames t).dedup.filter (fun v => !(usedNames t).contains v)
      unused.map unusedFinding ++ mutableDefaultFindings t ++ unreachableFindings t

/-
Section: code smells (`detect_code_smells`).
-/

/-- Code-smell finding dict: line and message. -/
structure SmellFinding where
  line : Option Nat
  message : String
deriving DecidableEq

/-- Test for an `ast.If` node. -/
def isIf : Node → Bool
  | .ifS _ _ _ _ => true
  | _ => false

/-- Smells contributed by one walked node.  The guard
`any(isinstance(n, ast.If) ...) and sum(...) > 5` is equivalent to the
count exceeding 5. -/
def smellsOfNode : Node → List SmellFinding
  | .functionDef nm ds body l =>
      (if 40 < body.length then
        [{ line := some l,
           message := "Function \x27" ++ nm ++ "\x27 too long (" ++ toString body.length ++ " lines)." }]
       else [])
        ++ (if 5 < (walkPlain (.functionDef nm ds body l)).countP isIf then
          [{ line := some l, message := "Function \x27" ++ nm ++ "\x27 deeply nested (>5 levels)." }]
         else [])
  | .classDef nm body l =>
      if 100 < body.length then
        [{ line := some l, message := "Large class \x27" ++ nm ++ "\x27 detected." }]
      else []
  | .const v l =>
      match constNumAbs v with
      | some a =>
          if 1000 < a then
            [{ line := some l, message := "Magic number " ++ constNumStr v ++ "." }]
          else []
      | none => []
  | _ => []

/-- Embedding of `detect_code_smells` (`ast.walk` node set, preorder). -/
def detect_code_smells : Except SynErr Node → List SmellFinding
  | .error _ => []
  | .ok t => (walkPlain t).flatMap smellsOfNode

/-
Section: syntax and indentation check (`check_syntax_and_indentation`)
and the aggregated pipeline (`run_static_analysis`).
-/

/-- A source unit: its raw lines (`code.splitlines()`) together with
the parser outcome for the text.  `compile(code, ...)` in the syntax
check and `ast.parse(code)` in the analyzers succeed or fail on exactly
the same inputs, so one outcome serves both. -/
structure Source where
  lines : List String
  parsed : Except SynErr Node

/-- Syntax-check issue dict: line (`None` never occurs for the mixed
indentation scan, but the parser may leave `lineno` unset), message and
severity string. -/
structure SyntaxIssue where
  line : Option Nat
  message : String
  severity : String
deriving DecidableEq

/-- Result of the syntax check: `{"syntax_issues": [...], "fatal": ...}`. -/
structure SyntaxResult where
  syntax_issues : List SyntaxIssue
  fatal : Bool
deriving DecidableEq

/-- Test `"\t" in line`, on the character list of the line. -/
def lineContainsTab (s : String) : Bool := s.data.contains '\t'

/-- Test `line.startswith(" ")`: the first character is a space. -/
def lineStartsWithSpace (s : String) : Bool :=
  match s.data with
  | [] => false
  | c :: _ => c == ' '

/-- Mixed-indentation findings: line `i` (1-based) is flagged when it
contains a tab and starts with a space (`"\t" in line and
line.startswith(" ")`). -/
def mixedIndentIssues (lines : List String) : List SyntaxIssue :=
  (lines.enumFrom 1).filterMap (fun p =>
    if lineContainsTab p.2 && lineStartsWithSpace p.2 then
      some { line := some p.1, message := "Mixed indentation (tabs and spaces).", severity := "Medium" }
    else none)

/-- Finding appended when compilation raises `SyntaxError` or
`IndentationError`: `getattr(e, "lineno", "?")` and
`f"{e.__class__.__name__}: {e.msg}"`, severity High. -/
def syntaxErrorIssue (e : SynErr) : SyntaxIssue :=
  { line := e.lineno, message := e.cls ++ ": " ++ e.msg, severity := "High" }

/-- Embedding of `check_syntax_and_indentation`: the mixed-indentation
scan always runs first; a parse failure appends one High finding to the
already collected issues and marks the result fatal. -/
def check_syntax_and_indentation (src : Source) : SyntaxResult :=
  let issues := mixedIndentIssues src.lines
  match src.parsed with
  | .error e => { syntax_issues := issues ++ [syntaxErrorIssue e], fatal := true }
  | .ok _ => { syntax_issues := issues, fatal := false }

/-
Section: delegated subprocess tools (flake8 and radon).
-/

/-- Exceptions that can escape the aggregation: `subprocess.run` itself
raising (e.g. the binary is missing), `json.loads` raising
`JSONDecodeError` outside any `try`, and a missing dict key
(`fdata["name"]` etc.) raising `KeyError`. -/
inductive PyErr where
  | subprocessRaised
  | jsonDecodeError
  | keyError
deriving DecidableEq

/-- Observable outcome of one `subprocess.run` invocation.  `stdout` is
given by its JSON-decoding result (`α`); `none` models output that is
not valid JSON, and the empty-output case `stdout or "{}"` is the empty
dict `some []`. -/
inductive SubpOutcome (α : Type) where
  | raised
  | ran (returncode : Int) (stdout : Option α) (stderr : String)

/-- Entry of a flake8 JSON issue list; `i.get(k)` yields `None` when
the key is absent. -/
structure FlakeEntry where
  line_number : Option Nat
  code : Option String
  text : Option String
deriving DecidableEq

/-- Decoded flake8 stdout: a JSON object mapping file names (the
temporary file path) to issue lists. -/
abbrev FlakeJson := List (String × List FlakeEntry)

/-- Style-issue dict built by `run_flake8`. -/
structure StyleIssue where
  line : Option Nat
  code : Option String
  message : Option String
deriving DecidableEq

/-- Result dict of `run_flake8`: the issue list, plus the `error` key
present only on an unexpected return code. -/
structure FlakeResult where
  style_issues : List StyleIssue
  error : Option String
deriving DecidableEq

/-- Issues extracted from the decoded flake8 output: the dict keys are
ignored (`for _, issue_list in output.items()`). -/
def flakeIssuesOf (valuesLists : List (List FlakeEntry)) : List StyleIssue :=
  valuesLists.flatMap (fun entries => entries.map (fun i =>
    { line := i.line_number, code := i.code, message := i.text }))

/-- Embedding of `run_flake8`.  A raising subprocess call propagates
(the call is not inside any `try`); a return code other than 0 or 1
yields an empty issue list with the `error` field set; undecodable
stdout is caught (`except json.JSONDecodeError`) and treated as `{}`. -/
def run_flake8 : SubpOutcome FlakeJson → Except PyErr FlakeResult
  | .raised => .error .subprocessRaised
  | .ran rc stdout stderr =>
      if ¬(rc = 0 ∨ rc = 1) then .ok { style_issues := [], error := some stderr }
      else
        match stdout with
        | none => .ok { style_issues := [], error := none }
        | some d => .ok { style_issues := flakeIssuesOf (d.map Prod.snd), error := none }

/-- Entry of a radon cyclomatic-complexity function record; field
access `fdata[...]` raises `KeyError` when absent. -/
structure CCEntry where
  nameField : Option String
  complexityField : Option Int
  rankField : Option String
deriving DecidableEq

/-- Decoded radon `cc -j` stdout. -/
abbrev CCJson := List (String × List CCEntry)

/-- Complexity record built by `run_radon_metrics`. -/
structure CCItem where
  nameVal : String
  complexity : Int
  rank : String
deriving DecidableEq

/-- Entry of the radon `mi -j` output object. -/
structure MIEntry where
  mi : Option ℚ
deriving DecidableEq

/-- Decoded radon `mi -j` stdout. -/
abbrev MIJson := List (String × MIEntry)

/-- Builds the complexity records of one function list; a missing
`name`, `complexity` or `rank` key raises `KeyError`. -/
def buildFuncs : List CCEntry → Except PyErr (List CCItem)
  | [] => .ok []
  | e :: es =>
      match e.nameField, e.complexityField, e.rankField with
      | some n, some c, some r =>
          match buildFuncs es with
          | .error err => .error err
          | .ok more => .ok ({ nameVal := n, complexity := c, rank := r } :: more)
      | _, _, _ => .error .keyError

/-- Concatenates the per-key function lists in dict order; the keys
themselves are ignored (`for _, funcs in cc_data.items()`). -/
def buildCCItems : List (List CCEntry) → Except PyErr (List CCItem)
  | [] => .ok []
  | funcs :: rest =>
      match buildFuncs funcs with
      | .error err => .error err
      | .ok items =>
          match buildCCItems rest with
          | .error err => .error err
          | .ok more => .ok (items ++ more)

/-- Result dict of `run_radon_metrics`. -/
structure RadonResult where
  complexity : List CCItem
  maintainability_index : Option ℚ
deriving DecidableEq

/-- Maintainability score: `next(iter(mi_data.values()), {}).get("mi", None)` —
the first value of the decoded object, or `None` when it is empty. -/
def miScoreOf (values : List MIEntry) : Option ℚ :=
  match values.head? with
  | none => none
  | some entry => entry.mi

/-- Embedding of `run_radon_metrics`.  Unlike `run_flake8`, the
`json.loads` calls here are not guarded: undecodable stdout raises
`JSONDecodeError`; a raising subprocess call propagates as well. -/
def run_radon_metrics (cc : SubpOutcome CCJson) (mi : SubpOutcome MIJson) :
    Except PyErr RadonResult :=
  match cc with
  | .raised => .error .subprocessRaised
  | .ran _ ccOut _ =>
      match ccOut with
      | none => .error .jsonDecodeError
      | some ccData =>
          match buildCCItems (ccData.map Prod.snd) with
          | .error err => .error err
          | .ok items =>
              match mi with
              | .raised => .error .subprocessRaised
              | .ran _ miOut _ =>
                  match miOut with
                  | none => .error .jsonDecodeError
                  | some miData =>
                      .ok { complexity := items,
                            maintainability_index := miScoreOf (miData.map Prod.snd) }

/-
Section: the aggregated report.
-/

/-- Summary block of a non-fatal report. -/
structure Summary where
  functions : Nat
  avg_complexity : ℚ
  maintainability_index : Option ℚ
  estimated_time_complexity : String
  estimated_space_complexity : String
  high_severity_warnings : List SyntaxIssue
deriving DecidableEq

/-- The aggregated analysis report.  The fatal branch of
`run_static_analysis` returns a dict holding only the syntax issues and
`fatal: True`; the normal branch returns the merged dict (which has no
top-level `fatal` key — `report.get("fatal")` is then falsy). -/
inductive Report where
  | fatal (syntax_issues : List SyntaxIssue)
  | full (syntax_analysis : SyntaxResult) (style_issues : List StyleIssue)
      (style_error : Option String) (complexity : List CCItem)
      (maintainability_index : Option ℚ) (algorithmic_complexity : Algo)
      (semantic_issues : List SemFinding) (code_smells : List SmellFinding)
      (summary : Summary)
deriving DecidableEq

/-- Truthiness of `report.get("fatal")`. -/
def Report.fatalFlag : Report → Bool
  | .fatal _ => true
  | .full _ _ _ _ _ _ _ _ _ => false

/-- Summary of a report, when one was built. -/
def Report.summaryOf : Report → Option Summary
  | .fatal _ => none
  | .full _ _ _ _ _ _ _ _ su => some su

/-- Syntax issues carried by a report. -/
def Report.syntaxIssues : Report → List SyntaxIssue
  | .fatal is => is
  | .full syn _ _ _ _ _ _ _ _ => syn.syntax_issues

/-- Arithmetic mean of the per-function complexity scores, or 0 when
there are none (`statistics.mean(complexities) if complexities else 0`;
the mean is modelled exactly as a rational). -/
def avgComplexity (complexities : List Int) : ℚ :=
  match complexities with
  | [] => 0
  | _ => ((complexities.map (fun i => (i : ℚ))).sum) / complexities.length

/-- Embedding of `run_static_analysis`: syntax check, fatal
short-circuit, the two delegated tools (whose exceptions propagate),
the three AST analyzers, and the summary.  The filter
`[c["complexity"] for c in ... if "complexity" in c]` always keeps every
record, since `run_radon_metrics` builds each with a `complexity` key. -/
def run_static_analysis (src : Source) (fl : SubpOutcome FlakeJson)
    (cc : SubpOutcome CCJson) (mi : SubpOutcome MIJson) : Except PyErr Report :=
  let syn := check_syntax_and_indentation src
  if syn.fatal then .ok (.fatal syn.syntax_issues)
  else
    match run_flake8 fl with
    | .error e => .error e
    | .ok style =>
        match run_radon_metrics cc mi with
        | .error e => .error e
        | .ok radon =>
            let algo := estimate_big_o_complexity src.parsed
            let semantics := analyze_semantics src.parsed
            let smells := detect_code_smells src.parsed
            let complexities := radon.complexity.map (fun c => c.complexity)
            let summary : Summary :=
              { functions := radon.complexity.length,
                avg_complexity := avgComplexity complexities,
                maintainability_index := radon.maintainability_index,
                estimated_time_complexity := algo.estimate,
                estimated_space_complexity := algo.space,
                high_severity_warnings :=
                  syn.syntax_issues.filter (fun i => i.severity == "High") }
            .ok (.full syn style.style_issues style.error radon.complexity
              radon.maintainability_index algo semantics smells summary)

/-
Section: security scanner aggregation (`scan_security_issues`).
The three collectors (text patterns, AST visitor, optional bandit) are
collaborator inputs here; what `scan_security_issues` adds is the
assembly, deduplication and severity sort (its step 4).  Every issue
the collectors construct carries one of the four severities of
`severity_order`, modelled as the closed enumeration `Severity` (an
issue with any other severity string would make the Python sort key
`severity_order.get(...)` return `None` and the sort raise).
Python `list.sort` is stable; a stable sort by a key is a unique
function of its input, so the stable insertion sort below is
extensionally the sort the source performs.
-/

inductive Severity where
  | high
  | medium
  | low
  | info
deriving DecidableEq

/-- Sort rank of a severity: `{"High": 1, "Medium": 2, "Low": 3, "Info": 4}`. -/
def severity_order : Severity → Nat
  | .high => 1
  | .medium => 2
  | .low => 3
  | .info => 4

/-- Security issue dict. -/
structure SecIssue where
  line : Option Nat
  severity : Severity
  category : String
  message : String
  suggestion : String
deriving DecidableEq

/-- Deduplication key: `(issue["line"], issue["message"])`. -/
def secKey (i : SecIssue) : Option Nat × String := (i.line, i.message)

/-- Deduplication loop of step 4: keep an issue when its key has not
been seen, recording seen keys. -/
def dedupSec (seen : List (Option Nat × String)) : List SecIssue → List SecIssue
  | [] => []
  | i :: rest =>
      if secKey i ∈ seen then dedupSec seen rest
      else i :: dedupSec (secKey i :: seen) rest

/-- Stable insertion of an issue before the first element of no smaller
severity rank: elements with strictly smaller rank are passed over, so
equal-rank elements already in place keep their earlier position. -/
def insertSec (x : SecIssue) : List SecIssue → List SecIssue
  | [] => [x]
  | y :: ys =>
      if severity_order y.severity < severity_order x.severity then y :: insertSec x ys
      else x :: y :: ys

/-- Stable sort by severity rank. -/
def sortSec : List SecIssue → List SecIssue
  | [] => []
  | x :: xs => insertSec x (sortSec xs)

/-- Issue appended when `ast.parse` raises inside the scanner:
`e.lineno or "?"` and `f"Could not parse code: {e.msg}"`. -/
def secSyntaxIssue (e : SynErr) : SecIssue :=
  { line := e.lineno, severity := .high, category := "Syntax Error",
    message := "Could not parse code: " ++ e.msg,
    suggestion := "Fix syntax issues before scanning." }

/-- The `all_issues` list of `scan_security_issues`: basic pattern
results, then the AST-visitor results (or the single syntax-error issue
when parsing raised), then the bandit results when nonempty
(`if bandit_results: all_issues.extend(...)`). -/
def collectedSecIssues (basic : List SecIssue) (astRes : Except SynErr (List SecIssue))
    (bandit : List SecIssue) : List SecIssue :=
  (basic ++ (match astRes with
    | .ok issues => issues
    | .error e => [secSyntaxIssue e]))
    ++ (if bandit.isEmpty then [] else bandit)

/-- Embedding of `scan_security_issues` (its `security_issues` list):
the collected issues, deduplicated keeping the first of each
`(line, message)` key, then stably sorted by severity rank. -/
def scan_security_issues (basic : List SecIssue) (astRes : Except SynErr (List SecIssue))
    (bandit : List SecIssue) : List SecIssue :=
  sortSec (dedupSec [] (collectedSecIssues basic astRes bandit))

/-
Section: shape predicates for delegated-tool outcomes, key-equivalence
of delegate outputs (two pipeline runs write different temporary file
paths, which appear only as the JSON object keys of the tools' stdout),
and the concrete instances the claim theorems evaluate.
-/

/-- The flake8 subprocess call completed (did not itself raise). -/
def FlakeCompletes : SubpOutcome FlakeJson → Prop
  | .raised => False
  | .ran _ _ _ => True

/-- The radon `cc` call completed with decodable JSON whose function
records carry all three accessed keys. -/
def CCWellFormed : SubpOutcome CCJson → Prop
  | .raised => False
  | .ran _ none _ => False
  | .ran _ (some d) _ => ∀ kv ∈ d, ∀ e ∈ kv.2,
      e.nameField ≠ none ∧ e.complexityField ≠ none ∧ e.rankField ≠ none

/-- The radon `mi` call completed with decodable JSON. -/
def MIWellFormed : SubpOutcome MIJson → Prop
  | .raised => False
  | .ran _ none _ => False
  | .ran _ (some _) _ => True

/-- Per-function records delivered by the radon `cc` output, keys
flattened away. -/
def ccValues : SubpOutcome CCJson → List CCEntry
  | .ran _ (some d) _ => d.flatMap (fun kv => kv.2)
  | _ => []

/-- Two flake8 outcomes that agree except possibly in the JSON object
keys of stdout (the temporary file name). -/
def FlakeKeyEquiv : SubpOutcome FlakeJson → SubpOutcome FlakeJson → Prop
  | .raised, .raised => True
  | .ran rc out err, .ran rc2 out2 err2 =>
      rc = rc2 ∧ err = err2 ∧ out.map (List.map Prod.snd) = out2.map (List.map Prod.snd)
  | _, _ => False

/-- Two radon `cc` outcomes agreeing except in JSON keys; the return
code and stderr of this call are never read. -/
def CCKeyEquiv : SubpOutcome CCJson → SubpOutcome CCJson → Prop
  | .raised, .raised => True
  | .ran _ out _, .ran _ out2 _ =>
      out.map (List.map Prod.snd) = out2.map (List.map Prod.snd)
  | _, _ => False

/-- Two radon `mi` outcomes agreeing except in JSON keys. -/
def MIKeyEquiv : SubpOutcome MIJson → SubpOutcome MIJson → Prop
  | .raised, .raised => True
  | .ran _ out _, .ran _ out2 _ =>
      out.map (List.map Prod.snd) = out2.map (List.map Prod.snd)
  | _, _ => False

/-- AST of the end-to-end scenario input
`"def f(x):\n    for i in range(x):\n        for j in range(x):\n            print(i,j)\n"`
as produced by `ast.parse`. -/
def c1Tree : Node :=
  .module [.functionDef "f" []
    [.forS (.name "i" .store 2)
      (.call (.name "range" .load 2) [.name "x" .load 2] 2)
      [.forS (.name "j" .store 3)
        (.call (.name "range" .load 3) [.name "x" .load 3] 3)
        [.exprS (.call (.name "print" .load 4) [.name "i" .load 4, .name "j" .load 4] 4) 4]
        [] 3]
      [] 2]
    1]

/-- The end-to-end scenario source unit. -/
def c1Source : Source :=
  { lines := ["def f(x):", "    for i in range(x):",
      "        for j in range(x):", "            print(i,j)"],
    parsed := .ok c1Tree }

/-- Delegated-tool outcomes for the end-to-end scenario: every tool ran
and reported nothing. -/
def c1Flake : SubpOutcome FlakeJson := .ran 0 (some []) ""

/-- Radon `cc` outcome, end-to-end scenario. -/
def c1CC : SubpOutcome CCJson := .ran 0 (some []) ""

/-- Radon `mi` outcome, end-to-end scenario. -/
def c1MI : SubpOutcome MIJson := .ran 0 (some []) ""

/-- The report the pipeline produces for the end-to-end scenario. -/
def c1Report : Report :=
  .full { syntax_issues := [], fatal := false } [] none [] none
    { estimate := "O(1)", space := "O(n)",
      details := ["Loop at line 2, depth 1", "Loop at line 3, depth 2"] }
    [] []
    { functions := 0, avg_complexity := 0, maintainability_index := none,
      estimated_time_complexity := "O(1)", estimated_space_complexity := "O(n)",
      high_severity_warnings := [] }

/-- Three loops nested inside one another (`for i: for j: for k: pass`):
the two inner loops sit at positive depth, so `nested = 2`. -/
def c1Triple : Node :=
  .module [.forS (.name "i" .store 1) (.name "xs" .load 1)
    [.forS (.name "j" .store 2) (.name "xs" .load 2)
      [.forS (.name "k" .store 3) (.name "xs" .load 3)
        [.passS 4] [] 3]
      [] 2]
    [] 1]

/-- Parse failure raised for the input `" \tx x"`. -/
def c2Err : SynErr :=
  { cls := "IndentationError", msg := "unexpected indent", lineno := some 1 }

/-- Source whose single line mixes indentation and fails to parse
(Python input `" \tx x"`). -/
def c2Src : Source := { lines := [" \tx x"], parsed := .error c2Err }

/-- A trivially valid source (`x = 1`). -/
def c3Src : Source :=
  { lines := ["x = 1"],
    parsed := .ok (.module [.assign [.name "x" .store 1] (.const (.int 1) 1) 1]) }

/-- Completed, empty delegate outcomes used by the C3 witness. -/
def c3Flake : SubpOutcome FlakeJson := .ran 0 (some []) ""

/-- Radon `cc` outcome for the C3 witness. -/
def c3CC : SubpOutcome CCJson := .ran 0 (some []) ""

/-- Radon `mi` outcome for the C3 witness. -/
def c3MI : SubpOutcome MIJson := .ran 0 (some []) ""

/-- A trivially valid source (`pass`) for the determinism witness. -/
def c4Src : Source := { lines := ["pass"], parsed := .ok (.module [.passS 1]) }

/-- First-run flake8 outcome: output keyed by the first temp path. -/
def c4FlakeA : SubpOutcome FlakeJson := .ran 0 (some [("/tmp/tmpaaaa.py", [])]) ""

/-- Second-run flake8 outcome: same values, different temp path key. -/
def c4FlakeB : SubpOutcome FlakeJson := .ran 0 (some [("/tmp/tmpbbbb.py", [])]) ""

/-- First-run radon `cc` outcome. -/
def c4CCA : SubpOutcome CCJson := .ran 0 (some [("/tmp/tmpaaaa.py", [])]) ""

/-- Second-run radon `cc` outcome. -/
def c4CCB : SubpOutcome CCJson := .ran 0 (some [("/tmp/tmpbbbb.py", [])]) ""

/-- First-run radon `mi` outcome. -/
def c4MIA : SubpOutcome MIJson := .ran 0 (some [("/tmp/tmpaaaa.py", { mi := some 50 })]) ""

/-- Second-run radon `mi` outcome. -/
def c4MIB : SubpOutcome MIJson := .ran 0 (some [("/tmp/tmpbbbb.py", { mi := some 50 })]) ""

/-- AST of `a = 1` — one assignment, the name never read. -/
def c5Tree : Node := .module [.assign [.name "a" .store 1] (.const (.int 1) 1) 1]

/-- Body of the recursive function of the C6 witness (`return f(x)`). -/
def c6Body : List Node := [.ret [.call (.name "f" .load 2) [.name "x" .load 2] 2] 2]

/-- AST of `def f(x): return f(x)`. -/
def c6Tree : Node := .module [.functionDef "f" [] c6Body 1]

/-- AST of `xs.sort()` — a sort call, no loops, no comprehensions, no
recursion. -/
def c7Tree : Node := .module [.exprS (.call (.attr (.name "xs" .load 1) "sort" 1) [] 1) 1]

/-- Concrete collected security issues: a Medium issue, a High issue
sharing its `(line, message)` key with the first, and another High
issue, in first-seen order. -/
def c8Basic : List SecIssue :=
  [{ line := some 1, severity := .medium, category := "Hardcoded Secrets",
     message := "m2", suggestion := "s" },
   { line := some 1, severity := .high, category := "Code Injection",
     message := "m2", suggestion := "x" },
   { line := some 3, severity := .high, category := "Command Injection",
     message := "m1", suggestion := "s" }]

/-- A trivially valid source (`pass`) for the C9 witness. -/
def c9Src : Source := { lines := ["pass"], parsed := .ok (.module [.passS 1]) }

/-- Completed empty flake8 outcome for the C9 witness. -/
def c9Flake : SubpOutcome FlakeJson := .ran 0 (some []) ""

/-- Completed empty radon `cc` outcome for the C9 witness. -/
def c9CC : SubpOutcome CCJson := .ran 0 (some []) ""

/-- Completed empty radon `mi` outcome for the C9 witness. -/
def c9MI : SubpOutcome MIJson := .ran 0 (some []) ""

/-- Summary produced for the C9 witness source. -/
def c9Summary : Summary :=
  { functions := 0, avg_complexity := 0, maintainability_index := none,
    estimated_time_complexity := "O(1)", estimated_space_complexity := "O(1)",
    high_severity_warnings := [] }

/-- Report produced for the C9 witness source. -/
def c9Report : Report :=
  .full { syntax_issues := [], fatal := false } [] none [] none
    { estimate := "O(1)", space := "O(1)", details := [] } [] [] c9Summary

/-- AST of `if 1: pass` — the conditional tests the integer literal 1. -/
def c10Tree : Node := .module [.ifS (.const (.int 1) 1) [.passS 2] [] 1]

/-
Helper lemmas.
-/

/-- The unused-variable message determines the variable name. -/
theorem unusedVarMsg_inj (a b : String) (h : unusedVarMsg a = unusedVarMsg b) : a = b := by
  have h2 := congrArg String.data h
  simp only [unusedVarMsg, String.data_append] at h2
  have h3 := List.append_cancel_right h2
  have h4 := List.append_cancel_left h3
  calc a = ⟨a.data⟩ := rfl
    _ = ⟨b.data⟩ := by rw [h4]
    _ = b := rfl

/-- The unused-variable finding determines the variable name. -/
theorem unusedFinding_inj (a b : String) (h : unusedFinding a = unusedFinding b) : a = b := by
  apply unusedVarMsg_inj
  simpa [unusedFinding] using h

/-- Injectivity of `unusedFinding`, packaged. -/
theorem unusedFinding_injective : Function.Injective unusedFinding :=
  fun a b h => unusedFinding_inj a b h

/-- Every mutable-default finding carries a line. -/
theorem mutDefOf_line (n : Node) (f : SemFinding) (h : f ∈ mutDefOf n) : f.line ≠ none := by
  cases n <;> simp_all [mutDefOf, List.mem_map]

/-- Every unreachable-branch finding carries a line. -/
theorem unreachOf_line (n : Node) (f : SemFinding) (h : unreachOf n = some f) : f.line ≠ none := by
  cases n <;> simp_all [unreachOf]
  case ifS test body orelse l =>
    cases test <;> simp_all [unreachOf]
    rw [← h.2]
    simp

/-- Unused-variable findings never occur among mutable-default
findings: the latter all carry a line. -/
theorem unusedFinding_not_mem_mut (t : Node) (v : String) :
    unusedFinding v ∉ mutableDefaultFindings t := by
  intro h
  obtain ⟨n, _, hf⟩ := List.mem_flatMap.1 h
  exact mutDefOf_line n _ hf rfl

/-- Unused-variable findings never occur among unreachable-branch
findings. -/
theorem unusedFinding_not_mem_unreach (t : Node) (v : String) :
    unusedFinding v ∉ unreachableFindings t := by
  intro h
  obtain ⟨n, _, hf⟩ := List.mem_filterMap.1 h
  exact unreachOf_line n _ hf rfl

/-- Unfolding equation of `analyze_semantics` on a parsed tree. -/
theorem analyze_semantics_ok (t : Node) :
    analyze_semantics (.ok t) =
      ((assignedNames t).dedup.filter (fun v => !(usedNames t).contains v)).map unusedFinding
        ++ mutableDefaultFindings t ++ unreachableFindings t := rfl

/-- The mixed-indentation scan never produces a High finding. -/
theorem mixedIndent_no_high (lines : List String) :
    (mixedIndentIssues lines).filter (fun i => i.severity == "High") = [] := by
  apply List.filter_eq_nil_iff.2
  intro a ha
  obtain ⟨p, _, hp⟩ := List.mem_filterMap.1 ha
  split at hp
  · simp only [Option.some.injEq] at hp
    rw [← hp]
    simp
  · simp at hp

/-- A loop counted as nested is in particular counted as a loop. -/
theorem nestedOf_le_loopsOf (t : Node) : nestedOf t ≤ loopsOf t :=
  List.countP_mono_left (fun p _ hp => by
    rw [Bool.and_eq_true] at hp
    exact hp.1)

/-- The time label of the estimator on a parsed tree, as the decision
chain over the five counters. -/
theorem estimate_ok_estimate (t : Node) :
    (estimate_big_o_complexity (.ok t)).estimate =
      (if 0 < recursionsOf t then "O(n^rec)"
       else if 2 ≤ nestedOf t then "O(n^2)"
       else if 0 < loopsOf t ∧ 0 < sortsOf t then "O(n log n)"
       else if loopsOf t = 1 then "O(n)"
       else if 0 < compOf t then "O(n)"
       else "O(1)") := rfl

/-- The space label of the estimator on a parsed tree. -/
theorem estimate_ok_space (t : Node) :
    (estimate_big_o_complexity (.ok t)).space =
      (if 0 < compOf t ∨ 0 < loopsOf t then "O(n)"
       else if 0 < recursionsOf t then "O(recursion depth)"
       else "O(1)") := rfl

/-- Complete function records build without a `KeyError`, one output
record per input record. -/
theorem buildFuncs_complete (es : List CCEntry)
    (h : ∀ e ∈ es, e.nameField ≠ none ∧ e.complexityField ≠ none ∧ e.rankField ≠ none) :
    ∃ items, buildFuncs es = .ok items ∧ items.length = es.length := by
  induction es with
  | nil => exact ⟨[], rfl, rfl⟩
  | cons e es ih =>
      obtain ⟨items, hok, hlen⟩ := ih (fun x hx => h x (List.mem_cons_of_mem _ hx))
      obtain ⟨h1, h2, h3⟩ := h e (List.mem_cons_self _ _)
      obtain ⟨fn, fc, fr⟩ := e
      simp only at h1 h2 h3
      cases fn with
      | none => exact absurd rfl h1
      | some n =>
          cases fc with
          | none => exact absurd rfl h2
          | some c =>
              cases fr with
              | none => exact absurd rfl h3
              | some r =>
                  refine ⟨{ nameVal := n, complexity := c, rank := r } :: items, ?_, ?_⟩
                  · rw [buildFuncs, hok]
                  · simp [hlen]

/-- Complete per-key lists build without a `KeyError`; the output
length is the total number of input records. -/
theorem buildCCItems_complete (valss : List (List CCEntry))
    (h : ∀ es ∈ valss, ∀ e ∈ es,
      e.nameField ≠ none ∧ e.complexityField ≠ none ∧ e.rankField ≠ none) :
    ∃ items, buildCCItems valss = .ok items ∧
      items.length = (valss.flatMap id).length := by
  induction valss with
  | nil => exact ⟨[], rfl, rfl⟩
  | cons es rest ih =>
      obtain ⟨more, hok2, hlen2⟩ := ih (fun x hx => h x (List.mem_cons_of_mem _ hx))
      obtain ⟨items, hok1, hlen1⟩ := buildFuncs_complete es (h es (List.mem_cons_self _ _))
      refine ⟨items ++ more, ?_, ?_⟩
      · rw [buildCCItems, hok1, hok2]
      · simp [hlen1, hlen2]

/-- The style extraction reads only the values of the decoded flake8
object, never its keys. -/
theorem run_flake8_key_invariant (fl fl' : SubpOutcome FlakeJson)
    (h : FlakeKeyEquiv fl fl') : run_flake8 fl = run_flake8 fl' := by
  cases fl <;> cases fl' <;> simp_all [FlakeKeyEquiv]
  case ran.ran rc out err rc2 out2 err2 =>
    obtain ⟨h1, h2, h3⟩ := h
    subst h1
    subst h2
    cases out <;> cases out2 <;> simp_all [run_flake8]

/-- The radon consumption reads only the values of the decoded
objects, never their keys. -/
theorem run_radon_key_invariant (cc cc' : SubpOutcome CCJson) (mi mi' : SubpOutcome MIJson)
    (hc : CCKeyEquiv cc cc') (hm : MIKeyEquiv mi mi') :
    run_radon_metrics cc mi = run_radon_metrics cc' mi' := by
  cases cc <;> cases cc' <;> simp_all [CCKeyEquiv]
  · simp [run_radon_metrics]
  case ran.ran rc out err rc2 out2 err2 =>
    cases out <;> cases out2 <;> simp_all [run_radon_metrics]
    case some.some d d' =>
      cases hb : buildCCItems (d'.map Prod.snd) <;>
        cases mi <;> cases mi' <;> simp_all [MIKeyEquiv]
      case ok.ran.ran items rc3 out3 err3 rc4 out4 err4 =>
        cases out3 <;> cases out4 <;> simp_all

/-- Inserting keeps the multiset of issues. -/
theorem insertSec_perm (x : SecIssue) (l : List SecIssue) :
    List.Perm (insertSec x l) (x :: l) := by
  induction l with
  | nil => simp [insertSec]
  | cons y ys ih =>
      rw [insertSec]
      split
      · exact (ih.cons y).trans (List.Perm.swap x y ys)
      · exact List.Perm.refl _

/-- Sorting keeps the multiset of issues. -/
theorem sortSec_perm (l : List SecIssue) : List.Perm (sortSec l) l := by
  induction l with
  | nil => simp [sortSec]
  | cons x xs ih => exact (insertSec_perm x (sortSec xs)).trans (ih.cons x)

/-- Inserting into a rank-sorted list keeps it rank-sorted. -/
theorem insertSec_sorted (x : SecIssue) (l : List SecIssue)
    (h : l.Pairwise (fun i j => severity_order i.severity ≤ severity_order j.severity)) :
    (insertSec x l).Pairwise
      (fun i j => severity_order i.severity ≤ severity_order j.severity) := by
  induction l with
  | nil => simp [insertSec]
  | cons y ys ih =>
      rw [insertSec]
      rw [List.pairwise_cons] at h
      split
      · rename_i hlt
        rw [List.pairwise_cons]
        refine ⟨?_, ih h.2⟩
        intro a ha
        rcases List.mem_cons.1 ((insertSec_perm x ys).mem_iff.1 ha) with he | hmem
        · rw [he]
          exact le_of_lt hlt
        · exact h.1 a hmem
      · rename_i hge
        push_neg at hge
        rw [List.pairwise_cons]
        refine ⟨?_, List.pairwise_cons.2 h⟩
        intro a ha
        rcases List.mem_cons.1 ha with he | hmem
        · rw [he]
          exact hge
        · exact le_trans hge (h.1 a hmem)

/-- The sort output is ordered by severity rank. -/
theorem sortSec_sorted (l : List SecIssue) :
    (sortSec l).Pairwise
      (fun i j => severity_order i.severity ≤ severity_order j.severity) := by
  induction l with
  | nil => simp [sortSec]
  | cons x xs ih => exact insertSec_sorted x _ ih

/-- The elements of any one severity are untouched by an insertion of
another severity, and receive an inserted element of their own severity
at the front — the core of stability. -/
theorem insertSec_filter_sev (x : SecIssue) (l : List SecIssue) (s : Severity) :
    (insertSec x l).filter (fun i => i.severity == s) =
      if x.severity == s then x :: l.filter (fun i => i.severity == s)
      else l.filter (fun i => i.severity == s) := by
  induction l with
  | nil =>
      rw [insertSec]
      by_cases hx : x.severity = s <;> simp [hx]
  | cons y ys ih =>
      rw [insertSec]
      split
      · rename_i hlt
        by_cases hx : x.severity = s
        · have hy : y.severity ≠ s := by
            intro he
            rw [hx, ← he] at hlt
            exact lt_irrefl _ hlt
          simp [List.filter_cons, hx, hy, ih]
        · simp [List.filter_cons, hx, ih]
      · by_cases hx : x.severity = s <;> simp [List.filter_cons, hx]

/-- Stability of the sort: within one severity class the output order
is the input order. -/
theorem sortSec_filter_sev (l : List SecIssue) (s : Severity) :
    (sortSec l).filter (fun i => i.severity == s) = l.filter (fun i => i.severity == s) := by
  induction l with
  | nil => rfl
  | cons x xs ih =>
      rw [sortSec, insertSec_filter_sev, ih]
      by_cases hx : x.severity = s <;> simp [List.filter_cons, hx]

/-- Every issue kept by the deduplication loop is the first issue of
its key among the remaining input, and its key was unseen. -/
theorem dedupSec_find (seen : List (Option Nat × String)) (l : List SecIssue) (y : SecIssue)
    (hy : y ∈ dedupSec seen l) :
    secKey y ∉ seen ∧ l.find? (fun a => secKey a == secKey y) = some y := by
  induction l generalizing seen with
  | nil => simp [dedupSec] at hy
  | cons i rest ih =>
      rw [dedupSec] at hy
      split at hy
      · rename_i hseen
        obtain ⟨hnot, hfind⟩ := ih seen hy
        have hne : secKey i ≠ secKey y := by
          intro he
          exact hnot (he ▸ hseen)
        refine ⟨hnot, ?_⟩
        rw [List.find?_cons_of_neg _ (by simpa using hne), hfind]
      · rename_i hnotseen
        cases hy with
        | head =>
            refine ⟨hnotseen, ?_⟩
            rw [List.find?_cons_of_pos _ (by simp)]
        | tail _ hy2 =>
            obtain ⟨hnot2, hfind⟩ := ih (secKey i :: seen) hy2
            have hne : secKey i ≠ secKey y := by
              intro he
              exact hnot2 (by rw [← he]; exact List.mem_cons_self _ _)
            refine ⟨fun hs => hnot2 (List.mem_cons_of_mem _ hs), ?_⟩
            rw [List.find?_cons_of_neg _ (by simpa using hne), hfind]

/-- Every input issue with an unseen key is represented in the
deduplicated output by an issue of the same key. -/
theorem dedupSec_covers (seen : List (Option Nat × String)) (l : List SecIssue) (x : SecIssue)
    (hx : x ∈ l) (hs : secKey x ∉ seen) :
    ∃ y ∈ dedupSec seen l, secKey y = secKey x := by
  induction l generalizing seen with
  | nil => simp at hx
  | cons i rest ih =>
      rw [dedupSec]
      split
      · rename_i hseen
        rcases List.mem_cons.1 hx with he | hx2
        · exact absurd (he ▸ hseen) hs
        · exact ih seen hx2 hs
      · rename_i hnot
        rcases List.mem_cons.1 hx with he | hx2
        · exact ⟨i, List.mem_cons_self _ _, by rw [he]⟩
        · by_cases hk : secKey x = secKey i
          · exact ⟨i, List.mem_cons_self _ _, hk.symm⟩
          · obtain ⟨y, hy, hke⟩ := ih (secKey i :: seen) hx2 (by
              intro hmem
              rcases List.mem_cons.1 hmem with he | hm
              · exact hk he
              · exact hs hm)
            exact ⟨y, List.mem_cons_of_mem _ hy, hke⟩

/-- No two issues kept by the deduplication share a key. -/
theorem dedupSec_keys_nodup (seen : List (Option Nat × String)) (l : List SecIssue) :
    (dedupSec seen l).Pairwise (fun i j => secKey i ≠ secKey j) := by
  induction l generalizing seen with
  | nil => simp [dedupSec]
  | cons i rest ih =>
      rw [dedupSec]
      split
      · exact ih seen
      · refine List.Pairwise.cons ?_ (ih _)
        intro j hj hkeq
        exact (dedupSec_find _ _ j hj).1 (hkeq ▸ List.mem_cons_self _ _)

/-
Claim theorems.
-/

/-- C1 (counterexample): on the canonical doubly-nested-loop input the
estimator returns time "O(1)", not "O(n^2)" — only the inner loop is
visited at positive depth, so `nested = 1 < 2`, and with `loops = 2`
every remaining time branch fails. -/
theorem C1_counterexample :
    (estimate_big_o_complexity (.ok c1Tree)).estimate = "O(1)" ∧
    (estimate_big_o_complexity (.ok c1Tree)).estimate ≠ "O(n^2)" :=
  ⟨rfl, by decide⟩

/-- C1 (amended): a time estimate of "O(n^2)" requires two loops at
positive nesting depth (`nested ≥ 2`, e.g. triple nesting) and no
recursion, and then the space estimate is "O(n)"; the canonical
doubly-nested input instead yields time "O(1)" and space "O(n)", with
zero semantic findings, zero smell findings, and a non-fatal report. -/
theorem C1_amended :
    (∀ t : Node, recursionsOf t = 0 → 2 ≤ nestedOf t →
      (estimate_big_o_complexity (.ok t)).estimate = "O(n^2)" ∧
      (estimate_big_o_complexity (.ok t)).space = "O(n)")
    ∧ run_static_analysis c1Source c1Flake c1CC c1MI = .ok c1Report
    ∧ c1Report.fatalFlag = false
    ∧ (estimate_big_o_complexity (.ok c1Tree)).estimate = "O(1)"
    ∧ (estimate_big_o_complexity (.ok c1Tree)).space = "O(n)"
    ∧ analyze_semantics (.ok c1Tree) = []
    ∧ detect_code_smells (.ok c1Tree) = [] := by
  refine ⟨?_, rfl, rfl, rfl, rfl, rfl, rfl⟩
  intro t hr hn
  have hl : 0 < loopsOf t := lt_of_lt_of_le (by norm_num) (le_trans hn (nestedOf_le_loopsOf t))
  rw [estimate_ok_estimate, estimate_ok_space, hr]
  constructor
  · rw [if_neg (by norm_num), if_pos hn]
  · rw [if_pos (Or.inr hl)]

/-- C1 witness: the amended statement evaluated on a triple-nested
loop, whose `nested` count is 2. -/
theorem C1_amended_witness :
    (estimate_big_o_complexity (.ok c1Triple)).estimate = "O(n^2)" ∧
    (estimate_big_o_complexity (.ok c1Triple)).space = "O(n)" :=
  C1_amended.1 c1Triple (by decide) (by decide)

/-- C2 (counterexample): on a source with one mixed-indentation line
and a parse failure, the fatal report carries two syntax findings, not
exactly one — the Medium mixed-indentation finding precedes the High
parse finding. -/
theorem C2_counterexample :
    run_static_analysis c2Src .raised .raised .raised =
      .ok (.fatal
        [{ line := some 1, message := "Mixed indentation (tabs and spaces).", severity := "Medium" },
         { line := some 1, message := "IndentationError: unexpected indent", severity := "High" }])
    ∧ [{ line := some 1, message := "Mixed indentation (tabs and spaces).", severity := "Medium" },
       ({ line := some 1, message := "IndentationError: unexpected indent", severity := "High" } : SyntaxIssue)].length ≠ 1 :=
  ⟨rfl, by decide⟩

/-- C2 (amended): a parse failure yields a fatal report that carries
only syntax findings (all downstream analyzer results are absent):
exactly one High finding — carrying the error class and description
and the parser-reported line — appended after whatever Medium
mixed-indentation findings the raw-line scan collected. -/
theorem C2_amended (src : Source) (e : SynErr) (fl : SubpOutcome FlakeJson)
    (cc : SubpOutcome CCJson) (mi : SubpOutcome MIJson)
    (h : src.parsed = .error e) :
    run_static_analysis src fl cc mi =
      .ok (.fatal (mixedIndentIssues src.lines ++ [syntaxErrorIssue e]))
    ∧ (mixedIndentIssues src.lines ++ [syntaxErrorIssue e]).filter
        (fun i => i.severity == "High") = [syntaxErrorIssue e]
    ∧ (syntaxErrorIssue e).severity = "High"
    ∧ (syntaxErrorIssue e).message = e.cls ++ ": " ++ e.msg
    ∧ (syntaxErrorIssue e).line = e.lineno := by
  refine ⟨?_, ?_, rfl, rfl, rfl⟩
  · rw [run_static_analysis]
    simp [check_syntax_and_indentation, h]
  · rw [List.filter_append, mixedIndent_no_high]
    simp [syntaxErrorIssue]

/-- C2 witness: the amended statement evaluated on the concrete
mixed-indentation parse failure. -/
theorem C2_amended_witness :
    run_static_analysis c2Src .raised .raised .raised =
      .ok (.fatal (mixedIndentIssues c2Src.lines ++ [syntaxErrorIssue c2Err]))
    ∧ (mixedIndentIssues c2Src.lines ++ [syntaxErrorIssue c2Err]).filter
        (fun i => i.severity == "High") = [syntaxErrorIssue c2Err]
    ∧ (syntaxErrorIssue c2Err).severity = "High"
    ∧ (syntaxErrorIssue c2Err).message = c2Err.cls ++ ": " ++ c2Err.msg
    ∧ (syntaxErrorIssue c2Err).line = c2Err.lineno :=
  C2_amended c2Src c2Err .raised .raised .raised rfl

/-- C3 (counterexample): when the flake8 subprocess call itself raises
(for instance the binary is missing), `run_static_analysis` does not
degrade gracefully — the exception propagates to the caller. -/
theorem C3_counterexample :
    run_static_analysis c3Src .raised c3CC c3MI = .error .subprocessRaised := rfl

/-- C3 (amended): when the delegated calls complete and radon returns
well-formed JSON with complete records, the aggregation returns a
report without raising, and with no per-function complexity scores
`Summary.avg_complexity` is 0; but a raising delegated call, malformed
radon JSON, or an incomplete radon record propagates an exception. -/
theorem C3_amended (src : Source) (fl : SubpOutcome FlakeJson) (cc : SubpOutcome CCJson)
    (mi : SubpOutcome MIJson)
    (h1 : FlakeCompletes fl) (h2 : CCWellFormed cc) (h3 : MIWellFormed mi) :
    ∃ r, run_static_analysis src fl cc mi = .ok r ∧
      (ccValues cc = [] → ∀ su, r.summaryOf = some su → su.avg_complexity = 0) := by
  obtain ⟨style, hstyle⟩ : ∃ style, run_flake8 fl = .ok style := by
    cases fl with
    | raised => exact absurd h1 (by simp [FlakeCompletes])
    | ran rc out err =>
        simp only [run_flake8]
        split
        · exact ⟨_, rfl⟩
        · cases out with
          | none => exact ⟨_, rfl⟩
          | some d => exact ⟨_, rfl⟩
  obtain ⟨radon, hradon, hempty⟩ : ∃ radon, run_radon_metrics cc mi = .ok radon ∧
      (ccValues cc = [] → radon.complexity = []) := by
    cases cc with
    | raised => exact absurd h2 (by simp [CCWellFormed])
    | ran rc out err =>
        cases out with
        | none => exact absurd h2 (by simp [CCWellFormed])
        | some d =>
            obtain ⟨items, hok, hlen⟩ := buildCCItems_complete (d.map Prod.snd) (by
              intro es hes e he
              obtain ⟨kv, hkv, hkve⟩ := List.mem_map.1 hes
              exact h2 kv hkv e (hkve ▸ he))
            cases mi with
            | raised => exact absurd h3 (by simp [MIWellFormed])
            | ran rc2 out2 err2 =>
                cases out2 with
                | none => exact absurd h3 (by simp [MIWellFormed])
                | some md =>
                    refine ⟨⟨items, miScoreOf (md.map Prod.snd)⟩, ?_, ?_⟩
                    · simp only [run_radon_metrics]
                      rw [hok]
                    · intro hcc
                      simp only [ccValues] at hcc
                      have hflat : (d.map Prod.snd).flatMap id = d.flatMap (fun kv => kv.2) := by
                        simp [List.flatMap_map]
                      rw [hflat, hcc] at hlen
                      simpa using List.length_eq_zero.1 hlen
  cases hsp : src.parsed with
  | error e =>
      refine ⟨.fatal (mixedIndentIssues src.lines ++ [syntaxErrorIssue e]), ?_, ?_⟩
      · rw [run_static_analysis]
        simp [check_syntax_and_indentation, hsp]
      · intro _ su hsu
        simp [Report.summaryOf] at hsu
  | ok t =>
      rw [run_static_analysis]
      simp only [check_syntax_and_indentation, hsp, Bool.false_eq_true, if_false]
      rw [hstyle, hradon]
      refine ⟨_, rfl, ?_⟩
      intro hcc su hsu
      simp only [Report.summaryOf, Option.some.injEq] at hsu
      rw [← hsu]
      simp only []
      rw [hempty hcc]
      simp [avgComplexity]

/-- C3 witness: the amended statement evaluated on completed empty
delegate outcomes over a trivially valid source. -/
theorem C3_amended_witness :
    ∃ r, run_static_analysis c3Src c3Flake c3CC c3MI = .ok r ∧
      (ccValues c3CC = [] → ∀ su, r.summaryOf = some su → su.avg_complexity = 0) :=
  C3_amended c3Src c3Flake c3CC c3MI trivial
    (fun kv hkv => absurd hkv (List.not_mem_nil kv)) trivial

/-- C4: the pipeline is a pure function of the input source and the
delegates' key-stripped outputs.  Two runs on identical input differ
only in the fresh temporary file path, which surfaces solely as the
JSON object keys of the delegated tools' stdout; reports of two such
runs are identical, so the pipeline is deterministic with
insertion-ordered findings (all orderings in the model are fixed
functions of the input). -/
theorem C4_two_run_determinism (src : Source) (fl fl' : SubpOutcome FlakeJson)
    (cc cc' : SubpOutcome CCJson) (mi mi' : SubpOutcome MIJson)
    (h1 : FlakeKeyEquiv fl fl') (h2 : CCKeyEquiv cc cc') (h3 : MIKeyEquiv mi mi') :
    run_static_analysis src fl cc mi = run_static_analysis src fl' cc' mi' := by
  rw [run_static_analysis, run_static_analysis,
    run_flake8_key_invariant fl fl' h1, run_radon_key_invariant cc cc' mi mi' h2 h3]

/-- C4 witness: two runs whose delegate outputs are keyed by different
temporary paths produce the same report. -/
theorem C4_two_run_determinism_witness :
    run_static_analysis c4Src c4FlakeA c4CCA c4MIA =
      run_static_analysis c4Src c4FlakeB c4CCB c4MIB :=
  C4_two_run_determinism c4Src c4FlakeA c4FlakeB c4CCA c4CCB c4MIA c4MIB ⟨rfl, rfl, rfl⟩ rfl rfl

/-- C5: unused-binding detection is per-name over the whole tree — a
name assigned somewhere (as a plain `Name` target) and read nowhere
yields exactly one finding, carrying no line; a name read anywhere is
never flagged. -/
theorem C5_unused_per_name (t : Node) (v : String) :
    ((v ∈ assignedNames t ∧ v ∉ usedNames t) →
      (analyze_semantics (.ok t)).count (unusedFinding v) = 1)
    ∧ (v ∈ usedNames t → unusedFinding v ∉ analyze_semantics (.ok t)) := by
  constructor
  · rintro ⟨ha, hu⟩
    rw [analyze_semantics_ok, List.count_append, List.count_append]
    have hmem : v ∈ (assignedNames t).dedup.filter (fun v => !(usedNames t).contains v) := by
      apply List.mem_filter.2
      refine ⟨List.mem_dedup.2 ha, ?_⟩
      simpa using hu
    have hnd : ((assignedNames t).dedup.filter (fun v => !(usedNames t).contains v)).Nodup :=
      (List.nodup_dedup _).filter _
    rw [List.count_map_of_injective _ unusedFinding unusedFinding_injective,
      List.count_eq_one_of_mem hnd hmem,
      List.count_eq_zero.2 (unusedFinding_not_mem_mut t v),
      List.count_eq_zero.2 (unusedFinding_not_mem_unreach t v)]
  · intro hv hmem
    rw [analyze_semantics_ok] at hmem
    rcases List.mem_append.1 hmem with hm | hr
    · rcases List.mem_append.1 hm with hu2 | hmut
      · obtain ⟨x, hx, hxe⟩ := List.mem_map.1 hu2
        have hxv : x = v := unusedFinding_inj x v hxe
        subst hxv
        have := (List.mem_filter.1 hx).2
        simp at this
        exact this hv
      · exact unusedFinding_not_mem_mut t v hmut
    · exact unusedFinding_not_mem_unreach t v hr

/-- C5 witness: `a = 1` yields exactly one unused-variable finding for
`a`. -/
theorem C5_unused_per_name_witness :
    (analyze_semantics (.ok c5Tree)).count (unusedFinding "a") = 1 :=
  (C5_unused_per_name c5Tree "a").1 ⟨by decide, by decide⟩

/-- C6: any visited function definition containing a call to its own
name anywhere in its subtree makes the time estimate "O(n^rec)",
whatever else the tree contains — the recursion test heads the
priority chain. -/
theorem C6_recursion_priority (t : Node)
    (h : ∃ p ∈ walkD t 0, ∃ nm ds body l, p.1 = Node.functionDef nm ds body l ∧
      0 < (walkPlain p.1).countP (isSelfCallTo nm)) :
    (estimate_big_o_complexity (.ok t)).estimate = "O(n^rec)" := by
  obtain ⟨p, hp, nm, ds, body, l, hfd, hpos⟩ := h
  have hrec : 0 < recursionsOf t := by
    have hle : recCallsOf p.1 ≤ ((walkD t 0).map (fun q => recCallsOf q.1)).sum :=
      List.single_le_sum (by simp) _ (List.mem_map_of_mem _ hp)
    have hgt : 0 < recCallsOf p.1 := by
      rw [hfd] at hpos ⊢
      simpa [recCallsOf] using hpos
    exact lt_of_lt_of_le hgt hle
  rw [estimate_ok_estimate, if_pos hrec]

/-- C6 witness: `def f(x): return f(x)` is estimated "O(n^rec)". -/
theorem C6_recursion_priority_witness :
    (estimate_big_o_complexity (.ok c6Tree)).estimate = "O(n^rec)" := by
  apply C6_recursion_priority
  refine ⟨(.functionDef "f" [] c6Body 1, 0), ?_, "f", [], c6Body, 1, rfl, by decide⟩
  simp [c6Tree, walkD, walkDList, c6Body]

/-- C7: with zero loop nodes, zero list-comprehension nodes and zero
recursive calls, the estimate is exactly ("O(1)", "O(1)"), regardless
of any other node kinds (sort calls included: every branch that could
mention them also requires a loop). -/
theorem C7_constant_complexity (t : Node) (h1 : loopsOf t = 0) (h2 : compOf t = 0)
    (h3 : recursionsOf t = 0) :
    (estimate_big_o_complexity (.ok t)).estimate = "O(1)" ∧
    (estimate_big_o_complexity (.ok t)).space = "O(1)" := by
  have hn : nestedOf t = 0 := Nat.le_zero.1 (h1 ▸ nestedOf_le_loopsOf t)
  rw [estimate_ok_estimate, estimate_ok_space, h1, h2, h3, hn]
  norm_num

/-- C7 witness: `xs.sort()` — a sort call alone still estimates
("O(1)", "O(1)"). -/
theorem C7_constant_complexity_witness :
    (estimate_big_o_complexity (.ok c7Tree)).estimate = "O(1)" ∧
    (estimate_big_o_complexity (.ok c7Tree)).space = "O(1)" :=
  C7_constant_complexity c7Tree (by decide) (by decide) (by decide)

/-- C8: the security scanner output is sorted by severity rank
(High < Medium < Low < Info), has pairwise-distinct `(line, message)`
keys, consists exactly of the first-seen issue of each collected key,
and the sort is stable — within each severity class the output order
is the deduplicated first-seen order. -/
theorem C8_security_postprocess (basic : List SecIssue)
    (astRes : Except SynErr (List SecIssue)) (bandit : List SecIssue) :
    (scan_security_issues basic astRes bandit).Pairwise
        (fun i j => severity_order i.severity ≤ severity_order j.severity)
    ∧ (scan_security_issues basic astRes bandit).Pairwise (fun i j => secKey i ≠ secKey j)
    ∧ (∀ y ∈ scan_security_issues basic astRes bandit,
        (collectedSecIssues basic astRes bandit).find? (fun a => secKey a == secKey y) = some y)
    ∧ (∀ x ∈ collectedSecIssues basic astRes bandit,
        ∃ y ∈ scan_security_issues basic astRes bandit, secKey y = secKey x)
    ∧ (∀ s : Severity, (scan_security_issues basic astRes bandit).filter (fun i => i.severity == s)
        = (dedupSec [] (collectedSecIssues basic astRes bandit)).filter (fun i => i.severity == s)) := by
  refine ⟨sortSec_sorted _, ?_, ?_, ?_, fun s => sortSec_filter_sev _ s⟩
  · exact (List.Perm.pairwise_iff (fun hab => hab.symm) (sortSec_perm _)).2
      (dedupSec_keys_nodup [] _)
  · intro y hy
    exact (dedupSec_find [] _ y ((sortSec_perm _).mem_iff.1 hy)).2
  · intro x hx
    obtain ⟨y, hy, hk⟩ := dedupSec_covers [] _ x hx (by simp)
    exact ⟨y, (sortSec_perm _).mem_iff.2 hy, hk⟩

/-- C8 witness: the sortedness conjunct evaluated on a concrete
collected list with a duplicated key and out-of-order severities. -/
theorem C8_security_postprocess_witness :
    (scan_security_issues c8Basic (.ok []) []).Pairwise
      (fun i j => severity_order i.severity ≤ severity_order j.severity) :=
  (C8_security_postprocess c8Basic (.ok []) []).1

/-- C9: in every report produced with a false fatal flag, the summary
carries an empty `high_severity_warnings` list — the mixed-indentation
scan emits only Medium findings and the only High syntax finding makes
the run fatal. -/
theorem C9_no_high_when_not_fatal (src : Source) (fl : SubpOutcome FlakeJson)
    (cc : SubpOutcome CCJson) (mi : SubpOutcome MIJson) (r : Report) (su : Summary)
    (h : run_static_analysis src fl cc mi = .ok r)
    (hf : r.fatalFlag = false) (hs : r.summaryOf = some su) :
    su.high_severity_warnings = [] := by
  rw [run_static_analysis] at h
  cases hp : src.parsed with
  | error e =>
      simp only [check_syntax_and_indentation, hp, if_true, Except.ok.injEq] at h
      rw [← h] at hf
      simp [Report.fatalFlag] at hf
  | ok t =>
      simp only [check_syntax_and_indentation, hp] at h
      cases hfl : run_flake8 fl with
      | error e => rw [hfl] at h; simp at h
      | ok style =>
          rw [hfl] at h
          cases hrd : run_radon_metrics cc mi with
          | error e => rw [hrd] at h; simp at h
          | ok radon =>
              rw [hrd] at h
              simp only [Bool.false_eq_true, if_false, Except.ok.injEq] at h
              rw [← h] at hs
              simp only [Report.summaryOf, Option.some.injEq] at hs
              rw [← hs]
              exact mixedIndent_no_high src.lines

/-- C9 witness: the invariant evaluated on a concrete non-fatal run. -/
theorem C9_no_high_when_not_fatal_witness : c9Summary.high_severity_warnings = [] :=
  C9_no_high_when_not_fatal c9Src c9Flake c9CC c9MI c9Report c9Summary rfl rfl rfl

/-- C10: a conditional testing the numeric literal 1 or 0 is flagged
as an unreachable branch, because the constant is compared with Python
equality against `True` and `False` and `1 == True`, `0 == False`. -/
theorem C10_numeric_constant_condition (t : Node) (v : ConstVal) (tl : Nat)
    (body orelse : List Node) (l : Nat)
    (hmem : Node.ifS (.const v tl) body orelse l ∈ walkPlain t)
    (hv : v = .int 1 ∨ v = .int 0) :
    ({ line := some l, message := "Unreachable branch (constant condition)." } : SemFinding)
      ∈ analyze_semantics (.ok t) := by
  rw [analyze_semantics_ok]
  refine List.mem_append_right _ ?_
  apply List.mem_filterMap.2
  refine ⟨_, hmem, ?_⟩
  rcases hv with h | h <;> subst h <;> rfl

/-- C10 witness: `if 1: pass` receives an unreachable-branch finding. -/
theorem C10_numeric_constant_condition_witness :
    ({ line := some 1, message := "Unreachable branch (constant condition)." } : SemFinding)
      ∈ analyze_semantics (.ok c10Tree) := by
  apply C10_numeric_constant_condition c10Tree (.int 1) 1 [.passS 2] [] 1
  · simp [c10Tree, walkPlain, walkList]
  · exact Or.inl rfl
